import Mathlib

/-!
# Verification of the `voteapp` session server

A shallow embedding of the session state machine of `src/server.js` (the
identity-based implementation, which the repository's design notes designate
as authoritative over the legacy socket-id version kept alongside it).

Modelling conventions:
* JavaScript objects used as string-keyed dictionaries are association lists
  with JavaScript object-assignment semantics: assignment overwrites an
  existing key in place and appends a fresh key.
* JavaScript numbers are modelled exactly as rationals (`ℚ`);
  `Math.round x = ⌊x + 1/2⌋`, the ECMAScript rounding (half toward +∞).
* A vote payload is modelled as `Option Int`: the result of
  `parseInt(valeur, 10)`, with `none` for a `NaN` outcome.
* Durable identities, session codes and socket ids are strings; the empty
  string plays the role of a missing/falsy value exactly where the source
  tests truthiness.  Error-message strings are abbreviated to ASCII slugs;
  no claim depends on message text.
-/

namespace VoteApp

/-- JS object lookup `o[k]` (`undefined` becomes `none`). -/
def alookup {α : Type} (k : String) : List (String × α) → Option α
  | [] => none
  | (k', v) :: rest => if k' = k then some v else alookup k rest

/-- JS object assignment `o[k] = v`: overwrite the existing entry for `k`
in place, or append a fresh entry. -/
def aset {α : Type} (k : String) (v : α) : List (String × α) → List (String × α)
  | [] => [(k, v)]
  | (k', v') :: rest => if k' = k then (k, v) :: rest else (k', v') :: aset k v rest

/-- JS `delete o[k]` / `redis.del`. -/
def adel {α : Type} (k : String) : List (String × α) → List (String × α)
  | [] => []
  | (k', v') :: rest => if k' = k then adel k rest else (k', v') :: adel k rest

/-- `Object.keys`. -/
def akeys {α : Type} (l : List (String × α)) : List String := l.map Prod.fst

/-- Session states; `OUVERTE`/`FERMEE`/`VOTE_OUVERT`/`VOTE_FERME` are the
source's names for the spec's `OPEN`/`CLOSED`/`VOTING`/`RESULTS`. -/
inductive Etat
  | OUVERTE
  | FERMEE
  | VOTE_OUVERT
  | VOTE_FERME
deriving DecidableEq

/-- A participant record `{ id, nom, connecte }`. -/
structure Emetteur where
  id : String
  nom : String
  connecte : Bool
deriving DecidableEq

/-- A closed-round history record `{ numero, moyenne, nbVotants, votes }`. -/
structure Round where
  numero : Nat
  moyenne : ℚ
  nbVotants : Nat
  votesDetail : List (String × Nat)
deriving DecidableEq

/-- The session snapshot stored in Redis under `party:<code>`. -/
structure Party where
  code : String
  recepteurOdId : String
  etat : Etat
  emetteurs : List (String × Emetteur)
  votes : List (String × Nat)
  moyenne : Option ℚ
  historique : List Round
  timerEndTime : Option Int
deriving DecidableEq

/-- The server-side state the handlers read and write: the Redis keyspace
(`party:<code>` snapshots and `od:<odId> → code` associations) and the
ephemeral in-memory routing maps `odToSocket` / `socketToOd`. -/
structure World where
  parties : List (String × Party)
  userParty : List (String × String)
  odToSocket : List (String × String)
  socketToOd : List (String × String)
deriving DecidableEq

/-- `Math.round` on an exact rational: ECMAScript rounds half toward +∞. -/
def jsRound (q : ℚ) : Int := ⌊q + 1/2⌋

/-- Rounding half away from zero — the wording used by the specification for
the one-decimal average; it agrees with `jsRound` on non-negative input. -/
def roundHalfAwayFromZero (q : ℚ) : Int :=
  if q < 0 then -⌊-q + 1/2⌋ else ⌊q + 1/2⌋

/-- `getParty(code)`: `null` for a falsy code, else the stored snapshot. -/
def getParty (w : World) (code : String) : Option Party :=
  if code = "" then none else alookup code w.parties

/-- `registerSocket(socket, odId, code)`: update both routing maps (the
Socket.IO room join has no bearing on stored state). -/
def registerSocket (w : World) (socketId odId : String) : World :=
  { w with odToSocket := aset odId socketId w.odToSocket,
           socketToOd := aset socketId odId w.socketToOd }

/-- `unregisterSocket(socket)`: drop the routing entries for this socket and
return the durable identity it was carrying, if any. -/
def unregisterSocket (w : World) (socketId : String) : World × Option String :=
  match alookup socketId w.socketToOd with
  | none => (w, none)
  | some odId =>
      let w' := if alookup odId w.odToSocket = some socketId
                then { w with odToSocket := adel odId w.odToSocket } else w
      ({ w' with socketToOd := adel socketId w'.socketToOd }, some odId)

/-- `Math.round((somme / votes.length) * 10) / 10` over the values of the
`votes` object. -/
def avgOf (party : Party) : ℚ :=
  (jsRound ((((party.votes.map Prod.snd).sum : ℚ) /
    ((party.votes.map Prod.snd).length : ℚ)) * 10) : ℚ) / 10

/-- The `votesDetail` object: display name → cast value, built by iterating
the `votes` entries (a vote whose identity has no participant record is
skipped). -/
def detailOf (party : Party) : List (String × Nat) :=
  party.votes.foldl (fun acc kv =>
    match alookup kv.1 party.emetteurs with
    | some em => aset em.nom kv.2 acc
    | none => acc) []

/-- `closeVote(party)` (the Redis write and the broadcast excepted): set
`etat = 'VOTE_FERME'`, clear the timer, and when at least one vote was cast
compute `moyenne = Math.round(somme/count * 10) / 10` and append the history
record `{ numero: historique.length + 1, moyenne, nbVotants, votes }`; with
no votes set `moyenne = null` and append nothing. -/
def closeVoteFn (party : Party) : Party :=
  let base := { party with etat := Etat.VOTE_FERME, timerEndTime := none }
  if (party.votes.map Prod.snd).length > 0 then
    { base with
        moyenne := some (avgOf party),
        historique := base.historique ++
          [{ numero := base.historique.length + 1,
             moyenne := avgOf party,
             nbVotants := (party.votes.map Prod.snd).length,
             votesDetail := detailOf party }] }
  else
    { base with moyenne := none }

/-- Outcome of the `vote` handler, from the voter's point of view. -/
inductive VoteOutcome
  | err (msg : String)
  | confirmed (v : Int)
deriving DecidableEq

/-- `true` when the handler answered with an `error` event. -/
def VoteOutcome.isError : VoteOutcome → Bool
  | .err _ => true
  | _ => false

/-- The body of `socket.on('vote')` once the caller's identity and session
are resolved: state check, membership check, `parseInt` range check, then
`party.votes[odId] = v` and a `vote-confirmed` acknowledgement. -/
def voteStep (party : Party) (odId : String) (valeur : Option Int) :
    Party × VoteOutcome :=
  if party.etat ≠ Etat.VOTE_OUVERT then (party, .err "vote-pas-ouvert")
  else if (alookup odId party.emetteurs).isNone then (party, .err "pas-emetteur")
  else
    match valeur with
    | none => (party, .err "valeur-invalide")
    | some v =>
        if v < 0 ∨ 6 < v then (party, .err "valeur-invalide")
        else ({ party with votes := aset odId v.toNat party.votes }, .confirmed v)

/-- The spec's domain condition on a vote payload: an integer in [0,6]. -/
def valeurValide : Option Int → Bool
  | some v => decide (0 ≤ v) && decide (v ≤ 6)
  | none => false

/-- `(nom || 'Anonyme').trim().substring(0, 20) || 'Anonyme'`, with `trim`
and `substring` expressed on the character list. -/
def nomClean (nom : String) : String :=
  let base := if nom = "" then "Anonyme" else nom
  let trimmed : List Char :=
    ((base.data.dropWhile Char.isWhitespace).reverse.dropWhile Char.isWhitespace).reverse
  let cut : String := ⟨trimmed.take 20⟩
  if cut = "" then "Anonyme" else cut

/-- Outcome of the `join-party` handler. -/
inductive JoinOutcome
  | errAutreParty
  | errCodeInvalide
  | errMax
  | rejoined (restoredVote : Option Nat)
  | joined
deriving DecidableEq

/-- The session mutation performed by `join-party`: a known identity only has
its `connecte` flag raised; an unknown identity is appended (with cleaned
display name) unless the session already holds 25 participants. -/
def joinPartyUpdate (party : Party) (odId nom : String) : Party :=
  match alookup odId party.emetteurs with
  | some em =>
      { party with emetteurs := aset odId { em with connecte := true } party.emetteurs }
  | none =>
      if party.emetteurs.length ≥ 25 then party
      else
        { party with emetteurs :=
            party.emetteurs ++ [(odId, { id := odId, nom := nomClean nom, connecte := true })] }

/-- The under-the-lock part of `socket.on('join-party')`: look the session
up, rejoin a known identity (in any state), or append a new participant
subject only to the 25-participant cap. -/
def joinFin (w₁ : World) (socketId code nom odId : String) : World × JoinOutcome :=
  match getParty w₁ code with
  | none => (w₁, .errCodeInvalide)
  | some party =>
      match alookup odId party.emetteurs with
      | some _ =>
          let w₂ := { w₁ with
            parties := aset code (joinPartyUpdate party odId nom) w₁.parties,
            userParty := aset odId code w₁.userParty }
          (registerSocket w₂ socketId odId, .rejoined (alookup odId party.votes))
      | none =>
          if party.emetteurs.length ≥ 25 then (w₁, .errMax)
          else
            let w₂ := { w₁ with
              parties := aset code (joinPartyUpdate party odId nom) w₁.parties,
              userParty := aset odId code w₁.userParty }
            (registerSocket w₂ socketId odId, .joined)

/-- `socket.on('join-party')`: the pre-lock conflict check against another
live session (with stale-association cleanup), then `joinFin` under the
lock.  `odId` is the payload identity after the
`clientOdId || randomUUID()` defaulting, hence never empty. -/
def joinStep (w : World) (socketId code nom odId : String) : World × JoinOutcome :=
  match alookup odId w.userParty with
  | some existingCode =>
      if existingCode ≠ "" ∧ existingCode ≠ code then
        match getParty w existingCode with
        | some _ => (w, .errAutreParty)
        | none => joinFin { w with userParty := adel odId w.userParty } socketId code nom odId
      else joinFin w socketId code nom odId
  | none => joinFin w socketId code nom odId

/-- The pre-lock conflict condition of `join-party`: the identity is already
associated with a DIFFERENT code whose session is still live. -/
def inOtherParty (w : World) (odId code : String) : Bool :=
  match alookup odId w.userParty with
  | some c => c != "" && c != code && (getParty w c).isSome
  | none => false

/-- Outcome of the `reconnect-party` handler. -/
inductive ReconnectOutcome
  | errManquant
  | failed
  | recepteurOk
  | emetteurOk (restoredVote : Option Nat)
deriving DecidableEq

/-- The session mutation performed by a successful reconnection: the
coordinator's snapshot is untouched; a participant only has its `connecte`
flag raised. -/
def reconnectPartyUpdate (party : Party) (odId : String) : Party :=
  if party.recepteurOdId = odId then party
  else
    match alookup odId party.emetteurs with
    | some em =>
        { party with emetteurs := aset odId { em with connecte := true } party.emetteurs }
    | none => party

/-- `socket.on('reconnect-party')`: missing-data guard, session lookup, then
coordinator / participant / unknown triage.  Unknown code or identity yields
the distinct `reconnect-failed` outcome. -/
def reconnectStep (w : World) (socketId odId code : String) :
    World × ReconnectOutcome :=
  if odId = "" ∨ code = "" then (w, .errManquant)
  else
    match getParty w code with
    | none => (w, .failed)
    | some party =>
        if party.recepteurOdId = odId then
          let w₁ := registerSocket w socketId odId
          ({ w₁ with userParty := aset odId code w₁.userParty }, .recepteurOk)
        else
          match alookup odId party.emetteurs with
          | some _ =>
              let w₁ := { w with
                parties := aset code (reconnectPartyUpdate party odId) w.parties,
                userParty := aset odId code w.userParty }
              (registerSocket w₁ socketId odId, .emetteurOk (alookup odId party.votes))
          | none => (w, .failed)

/-- The session mutation performed by a transport disconnect: nothing for the
coordinator, `connecte = false` for a known participant, nothing otherwise. -/
def disconnectPartyStep (party : Party) (odId : String) : Party :=
  if party.recepteurOdId = odId then party
  else
    match alookup odId party.emetteurs with
    | some em =>
        { party with emetteurs := aset odId { em with connecte := false } party.emetteurs }
    | none => party

/-- `socket.on('disconnect')`: unregister the socket, resolve the identity's
session, then preserve the session (coordinator) or mark the participant
disconnected.  The `party:` key is never deleted here. -/
def disconnectStep (w : World) (socketId : String) : World :=
  match unregisterSocket w socketId with
  | (w₁, none) => w₁
  | (w₁, some odId) =>
      if odId = "" then w₁
      else
        match alookup odId w₁.userParty with
        | none => w₁
        | some code =>
            if code = "" then w₁
            else
              match getParty w₁ code with
              | none => { w₁ with userParty := adel odId w₁.userParty }
              | some party =>
                  if party.recepteurOdId = odId then w₁
                  else if (alookup odId party.emetteurs).isSome then
                    { w₁ with parties := aset code (disconnectPartyStep party odId) w₁.parties }
                  else w₁

/-- What one round-timer tick does to the store. -/
inductive TickResult
  | partyGone
  | noWrite
  | closed (party' : Party)
deriving DecidableEq

/-- One tick of the interval armed by `startTimer`: reload the session, stop
if it is gone, compute `remaining = Math.round((timerEndTime - now)/1000)`
(JS coerces a `null` deadline to 0) and close the vote — exactly the
`closeVote` function — when `remaining <= 0`; otherwise do nothing: no store
write, no broadcast.  `.closed` implies the interval was disarmed. -/
def timerTick (w : World) (code : String) (now : Int) : TickResult :=
  match getParty w code with
  | none => .partyGone
  | some party =>
      let tEnd : ℚ := match party.timerEndTime with
        | some t => (t : ℚ)
        | none => 0
      let remaining := jsRound ((tEnd - (now : ℚ)) / 1000)
      if remaining ≤ 0 then .closed (closeVoteFn party) else .noWrite

/-- `Math.floor(1000 + q * 9000)` for one draw `q` of `Math.random()`. -/
def candidateCode (q : ℚ) : Nat := (⌊(1000 : ℚ) + q * 9000⌋).toNat

/-- `generateCode()`: rejection sampling over the random stream `draws`
against the codes currently present in the store (`redis.exists`). -/
def generateCode (w : World) : List ℚ → Option String
  | [] => none
  | q :: rest =>
      let code := Nat.repr (candidateCode q)
      if (alookup code w.parties).isSome then generateCode w rest else some code

/-- The session created by `start-party`. -/
def initParty (code odId : String) : Party :=
  { code := code, recepteurOdId := odId, etat := Etat.OUVERTE,
    emetteurs := [], votes := [], moyenne := none, historique := [],
    timerEndTime := none }

/-- The per-session actions of the six handlers, with the caller's resolved
durable identity.  `openVoteA` carries the deadline that `startTimer`
computes from `timerSeconds` (or `none` when no timer is requested). -/
inductive Action
  | joinA (odId nom : String)
  | closeDoorsA (odId : String)
  | openVoteA (odId : String) (timerEnd : Option Int)
  | closeVoteA (odId : String)
  | voteA (odId : String) (valeur : Option Int)
  | reconnectA (odId : String)
  | disconnectA (odId : String)
deriving DecidableEq

/-- The stored session after one handler invocation (rejections store
nothing, i.e. leave the snapshot as it was). -/
def applyAction (party : Party) : Action → Party
  | .joinA odId nom => joinPartyUpdate party odId nom
  | .closeDoorsA odId =>
      if odId = party.recepteurOdId then { party with etat := Etat.FERMEE } else party
  | .openVoteA odId tEnd =>
      if odId = party.recepteurOdId then
        { party with votes := [], moyenne := none, etat := Etat.VOTE_OUVERT,
                     timerEndTime := tEnd }
      else party
  | .closeVoteA odId =>
      if odId = party.recepteurOdId then closeVoteFn party else party
  | .voteA odId valeur => (voteStep party odId valeur).1
  | .reconnectA odId => reconnectPartyUpdate party odId
  | .disconnectA odId => disconnectPartyStep party odId

/-- Sessions reachable from creation through any sequence of handler
invocations. -/
inductive Reachable : Party → Prop
  | init (code odId : String) : Reachable (initParty code odId)
  | step (party : Party) (a : Action) : Reachable party → Reachable (applyAction party a)

/-- Invariant: every key of `votes` is a key of `emetteurs`. -/
def votesSubset (party : Party) : Bool :=
  party.votes.all fun kv => (alookup kv.1 party.emetteurs).isSome

/-- `historique` numbering check, offset by the number of records already
seen: the `i`-th record of the remainder carries `numero = k + i + 1`. -/
def numberedFrom (k : Nat) : List Round → Bool
  | [] => true
  | r :: rest => (r.numero == k + 1) && numberedFrom (k + 1) rest

/-! ## Association-list lemmas -/

theorem alookup_aset_self {α : Type} (k : String) (v : α) (l : List (String × α)) :
    alookup k (aset k v l) = some v := by
  induction l with
  | nil => simp [aset, alookup]
  | cons hd tl ih =>
      obtain ⟨k', v'⟩ := hd
      by_cases h : k' = k
      · simp [aset, alookup, h]
      · simp [aset, alookup, h, ih]

theorem alookup_aset_of_ne {α : Type} (k k₂ : String) (v : α) (l : List (String × α))
    (h : k₂ ≠ k) : alookup k₂ (aset k v l) = alookup k₂ l := by
  induction l with
  | nil => simp [aset, alookup, Ne.symm h]
  | cons hd tl ih =>
      obtain ⟨k', v'⟩ := hd
      by_cases hk : k' = k
      · subst hk
        simp [aset, alookup, Ne.symm h]
      · simp only [aset, if_neg hk, alookup]
        by_cases hk2 : k' = k₂ <;> simp [hk2, ih]

theorem akeys_aset {α : Type} (k : String) (v : α) (l : List (String × α)) :
    akeys (aset k v l) =
      if (alookup k l).isSome then akeys l else akeys l ++ [k] := by
  induction l with
  | nil => simp [aset, alookup, akeys]
  | cons hd tl ih =>
      obtain ⟨k', v'⟩ := hd
      by_cases h : k' = k
      · simp [aset, alookup, akeys, h]
      · simp only [aset, if_neg h, alookup, akeys, List.map_cons]
        rw [akeys] at ih
        by_cases h2 : (alookup k tl).isSome <;> simp [h, h2, ih, akeys]

theorem length_aset {α : Type} (k : String) (v : α) (l : List (String × α)) :
    (aset k v l).length = if (alookup k l).isSome then l.length else l.length + 1 := by
  have h1 : (aset k v l).length = (akeys (aset k v l)).length := by
    simp [akeys]
  have h2 : (akeys l).length = l.length := by simp [akeys]
  rw [h1, akeys_aset]
  by_cases h : (alookup k l).isSome <;> simp [h, h2]

theorem mem_aset {α : Type} (k : String) (v : α) (l : List (String × α))
    (kv : String × α) (h : kv ∈ aset k v l) : kv = (k, v) ∨ kv ∈ l := by
  induction l with
  | nil => simpa [aset] using h
  | cons hd tl ih =>
      obtain ⟨k', v'⟩ := hd
      by_cases hk : k' = k
      · simp only [aset, if_pos hk, List.mem_cons] at h
        rcases h with h | h
        · exact Or.inl h
        · exact Or.inr (List.mem_cons_of_mem _ h)
      · simp only [aset, if_neg hk, List.mem_cons] at h
        rcases h with h | h
        · exact Or.inr (h ▸ List.mem_cons_self _ _)
        · rcases ih h with h' | h'
          · exact Or.inl h'
          · exact Or.inr (List.mem_cons_of_mem _ h')

theorem alookup_isSome_iff_mem {α : Type} (k : String) (l : List (String × α)) :
    (alookup k l).isSome = true ↔ k ∈ akeys l := by
  induction l with
  | nil => simp [alookup, akeys]
  | cons hd tl ih =>
      obtain ⟨k', v'⟩ := hd
      by_cases h : k' = k
      · simp [alookup, akeys, h]
      · simp [alookup, akeys, h, ih, Ne.symm h]

theorem alookup_append_some {α : Type} (k : String) (l₁ l₂ : List (String × α))
    (v : α) (h : alookup k l₁ = some v) : alookup k (l₁ ++ l₂) = some v := by
  induction l₁ with
  | nil => simp [alookup] at h
  | cons hd tl ih =>
      obtain ⟨k', v'⟩ := hd
      by_cases hk : k' = k
      · simpa [alookup, hk] using h
      · simp only [alookup, if_neg hk] at h ⊢
        exact ih h

theorem alookup_append_none {α : Type} (k : String) (l₁ l₂ : List (String × α))
    (h : alookup k l₁ = none) : alookup k (l₁ ++ l₂) = alookup k l₂ := by
  induction l₁ with
  | nil => simp
  | cons hd tl ih =>
      obtain ⟨k', v'⟩ := hd
      by_cases hk : k' = k
      · simp [alookup, hk] at h
      · simp only [alookup, if_neg hk] at h ⊢
        exact ih h

theorem nodup_akeys_aset {α : Type} (k : String) (v : α) (l : List (String × α))
    (h : (akeys l).Nodup) : (akeys (aset k v l)).Nodup := by
  rw [akeys_aset]
  by_cases hs : (alookup k l).isSome
  · simp [hs, h]
  · have hk : k ∉ akeys l := fun hm =>
      hs ((alookup_isSome_iff_mem k l).mpr hm)
    simp only [hs, if_false]
    simpa [List.nodup_append] using ⟨h, hk⟩

theorem count_akeys_aset {α : Type} (k : String) (v : α) (l : List (String × α))
    (h : (akeys l).Nodup) : (akeys (aset k v l)).count k = 1 := by
  rw [akeys_aset]
  by_cases hs : (alookup k l).isSome
  · have hm : k ∈ akeys l := (alookup_isSome_iff_mem k l).mp hs
    simp [hs, List.count_eq_one_of_mem h hm]
  · have hk : k ∉ akeys l := fun hm =>
      hs ((alookup_isSome_iff_mem k l).mpr hm)
    simp [hs, List.count_append, List.count_eq_zero_of_not_mem hk]

/-! ## Rounding -/

theorem roundHalfAwayFromZero_eq_jsRound (q : ℚ) (h : 0 ≤ q) :
    roundHalfAwayFromZero q = jsRound q := by
  unfold roundHalfAwayFromZero jsRound
  rw [if_neg (not_lt.mpr h)]

/-! ## History numbering -/

theorem numberedFrom_append (k : Nat) (l : List Round) (r : Round) :
    numberedFrom k (l ++ [r])
      = (numberedFrom k l && (r.numero == k + l.length + 1)) := by
  induction l generalizing k with
  | nil => simp [numberedFrom]
  | cons r' tl ih =>
      simp only [List.cons_append, numberedFrom, List.append_eq, ih (k + 1),
        List.length_cons]
      have harith : k + 1 + tl.length + 1 = k + (tl.length + 1) + 1 := by omega
      rw [harith, Bool.and_assoc]

theorem numberedFrom_get (l : List Round) (k i : Nat) (hi : i < l.length)
    (h : numberedFrom k l = true) : (l.get ⟨i, hi⟩).numero = k + i + 1 := by
  induction l generalizing k i with
  | nil => exact absurd hi (by simp)
  | cons r tl ih =>
      simp only [numberedFrom, Bool.and_eq_true, beq_iff_eq] at h
      cases i with
      | zero => simpa using h.1
      | succ j =>
          have hj : j < tl.length := by simpa using hi
          have := ih (k + 1) j hj h.2
          simpa [List.get, Nat.add_comm, Nat.add_assoc, Nat.add_left_comm] using this

/-! ## Frame facts about the per-session mutations -/

theorem closeVoteFn_etat (p : Party) : (closeVoteFn p).etat = Etat.VOTE_FERME := by
  unfold closeVoteFn; split <;> rfl

theorem closeVoteFn_timer (p : Party) : (closeVoteFn p).timerEndTime = none := by
  unfold closeVoteFn; split <;> rfl

theorem closeVoteFn_votes (p : Party) : (closeVoteFn p).votes = p.votes := by
  unfold closeVoteFn; split <;> rfl

theorem closeVoteFn_emetteurs (p : Party) : (closeVoteFn p).emetteurs = p.emetteurs := by
  unfold closeVoteFn; split <;> rfl

theorem length_votesVals_pos (p : Party) (h : p.votes ≠ []) :
    (p.votes.map Prod.snd).length > 0 := by
  simpa using List.length_pos.mpr h

theorem closeVoteFn_historique_pos (p : Party) (h : p.votes ≠ []) :
    (closeVoteFn p).historique = p.historique ++
      [{ numero := p.historique.length + 1, moyenne := avgOf p,
         nbVotants := (p.votes.map Prod.snd).length, votesDetail := detailOf p }] := by
  unfold closeVoteFn
  rw [if_pos (length_votesVals_pos p h)]

theorem closeVoteFn_historique_nil (p : Party) (h : p.votes = []) :
    (closeVoteFn p).historique = p.historique := by
  unfold closeVoteFn
  rw [if_neg (by simp [h])]

theorem closeVoteFn_moyenne_pos (p : Party) (h : p.votes ≠ []) :
    (closeVoteFn p).moyenne = some (avgOf p) := by
  unfold closeVoteFn
  rw [if_pos (length_votesVals_pos p h)]

theorem closeVoteFn_moyenne_nil (p : Party) (h : p.votes = []) :
    (closeVoteFn p).moyenne = none := by
  unfold closeVoteFn
  rw [if_neg (by simp [h])]

theorem voteStep_frame (p : Party) (odId : String) (valeur : Option Int) :
    (voteStep p odId valeur).1 = { p with votes := (voteStep p odId valeur).1.votes } := by
  unfold voteStep
  split
  · rfl
  split
  · rfl
  split
  · rfl
  split <;> rfl

theorem joinPartyUpdate_frame (p : Party) (odId nom : String) :
    joinPartyUpdate p odId nom
      = { p with emetteurs := (joinPartyUpdate p odId nom).emetteurs } := by
  unfold joinPartyUpdate
  cases alookup odId p.emetteurs with
  | some em => rfl
  | none =>
      by_cases hl : p.emetteurs.length ≥ 25
      · rw [if_pos hl]
      · rw [if_neg hl]

theorem reconnectPartyUpdate_frame (p : Party) (odId : String) :
    reconnectPartyUpdate p odId
      = { p with emetteurs := (reconnectPartyUpdate p odId).emetteurs } := by
  unfold reconnectPartyUpdate
  by_cases h : p.recepteurOdId = odId
  · rw [if_pos h]
  · rw [if_neg h]
    cases alookup odId p.emetteurs with
    | some em => rfl
    | none => rfl

theorem disconnectPartyStep_frame (p : Party) (odId : String) :
    disconnectPartyStep p odId
      = { p with emetteurs := (disconnectPartyStep p odId).emetteurs } := by
  unfold disconnectPartyStep
  by_cases h : p.recepteurOdId = odId
  · rw [if_pos h]
  · rw [if_neg h]
    cases alookup odId p.emetteurs with
    | some em => rfl
    | none => rfl

/-! ## Preservation of the session invariant -/

theorem isSome_alookup_aset {α : Type} (k odId : String) (em : α)
    (l : List (String × α)) (hk : (alookup k l).isSome = true) :
    (alookup k (aset odId em l)).isSome = true := by
  by_cases h : k = odId
  · subst h
    rw [alookup_aset_self]
    rfl
  · rw [alookup_aset_of_ne odId k em l h]
    exact hk

theorem votesSubset_mono (p : Party) (ems' : List (String × Emetteur))
    (hs : votesSubset p = true)
    (hmono : ∀ k, (alookup k p.emetteurs).isSome = true →
      (alookup k ems').isSome = true) :
    votesSubset { p with emetteurs := ems' } = true := by
  rw [votesSubset, List.all_eq_true] at hs ⊢
  intro kv hkv
  exact hmono kv.1 (hs kv hkv)

theorem invariant_joinPartyUpdate (p : Party) (odId nom : String)
    (h : votesSubset p = true ∧ p.emetteurs.length ≤ 25) :
    votesSubset (joinPartyUpdate p odId nom) = true ∧
    (joinPartyUpdate p odId nom).emetteurs.length ≤ 25 := by
  unfold joinPartyUpdate
  cases hem : alookup odId p.emetteurs with
  | some em =>
      refine ⟨votesSubset_mono p _ h.1 (fun k hk => isSome_alookup_aset k odId _ _ hk), ?_⟩
      show (aset odId _ p.emetteurs).length ≤ 25
      rw [length_aset]
      simp only [hem, Option.isSome_some, if_true]
      exact h.2
  | none =>
      by_cases hlen : p.emetteurs.length ≥ 25
      · simpa [hlen] using h
      · rw [if_neg hlen]
        constructor
        · refine votesSubset_mono p _ h.1 (fun k hk => ?_)
          obtain ⟨v, hv⟩ := Option.isSome_iff_exists.mp hk
          rw [alookup_append_some k _ _ v hv]
          rfl
        · show (p.emetteurs ++ [_]).length ≤ 25
          rw [List.length_append, List.length_singleton]
          omega

theorem invariant_voteStep (p : Party) (odId : String) (valeur : Option Int)
    (h : votesSubset p = true ∧ p.emetteurs.length ≤ 25) :
    votesSubset (voteStep p odId valeur).1 = true ∧
    (voteStep p odId valeur).1.emetteurs.length ≤ 25 := by
  unfold voteStep
  split
  · exact h
  split
  · exact h
  rename_i h1 h2
  split
  · exact h
  split
  · exact h
  refine ⟨?_, h.2⟩
  rw [votesSubset, List.all_eq_true]
  intro kv hkv
  rcases mem_aset _ _ _ _ hkv with heq | hm
  · subst heq
    cases hcase : alookup odId p.emetteurs with
    | none => simp [hcase] at h2
    | some em => simp [hcase]
  · exact (List.all_eq_true.mp h.1) kv hm

theorem invariant_reconnectPartyUpdate (p : Party) (odId : String)
    (h : votesSubset p = true ∧ p.emetteurs.length ≤ 25) :
    votesSubset (reconnectPartyUpdate p odId) = true ∧
    (reconnectPartyUpdate p odId).emetteurs.length ≤ 25 := by
  unfold reconnectPartyUpdate
  split
  · exact h
  cases hem : alookup odId p.emetteurs with
  | some em =>
      refine ⟨votesSubset_mono p _ h.1 (fun k hk => isSome_alookup_aset k odId _ _ hk), ?_⟩
      show (aset odId _ p.emetteurs).length ≤ 25
      rw [length_aset]
      simp only [hem, Option.isSome_some, if_true]
      exact h.2
  | none => exact h

theorem invariant_disconnectPartyStep (p : Party) (odId : String)
    (h : votesSubset p = true ∧ p.emetteurs.length ≤ 25) :
    votesSubset (disconnectPartyStep p odId) = true ∧
    (disconnectPartyStep p odId).emetteurs.length ≤ 25 := by
  unfold disconnectPartyStep
  split
  · exact h
  cases hem : alookup odId p.emetteurs with
  | some em =>
      refine ⟨votesSubset_mono p _ h.1 (fun k hk => isSome_alookup_aset k odId _ _ hk), ?_⟩
      show (aset odId _ p.emetteurs).length ≤ 25
      rw [length_aset]
      simp only [hem, Option.isSome_some, if_true]
      exact h.2
  | none => exact h

theorem invariant_applyAction (p : Party) (a : Action)
    (h : votesSubset p = true ∧ p.emetteurs.length ≤ 25) :
    votesSubset (applyAction p a) = true ∧
    (applyAction p a).emetteurs.length ≤ 25 := by
  cases a with
  | joinA odId nom => exact invariant_joinPartyUpdate p odId nom h
  | closeDoorsA odId =>
      show votesSubset (if odId = p.recepteurOdId then
          { p with etat := Etat.FERMEE } else p) = true ∧
        (if odId = p.recepteurOdId then
          { p with etat := Etat.FERMEE } else p).emetteurs.length ≤ 25
      split
      · exact ⟨votesSubset_mono p _ h.1 (fun k hk => hk), h.2⟩
      · exact h
  | openVoteA odId tEnd =>
      show votesSubset (if odId = p.recepteurOdId then
          { p with votes := [], moyenne := none, etat := Etat.VOTE_OUVERT,
                   timerEndTime := tEnd } else p) = true ∧
        (if odId = p.recepteurOdId then
          { p with votes := [], moyenne := none, etat := Etat.VOTE_OUVERT,
                   timerEndTime := tEnd } else p).emetteurs.length ≤ 25
      split
      · exact ⟨by rw [votesSubset, List.all_eq_true]; intro kv hkv; simp at hkv, h.2⟩
      · exact h
  | closeVoteA odId =>
      show votesSubset (if odId = p.recepteurOdId then closeVoteFn p else p) = true ∧
        (if odId = p.recepteurOdId then closeVoteFn p else p).emetteurs.length ≤ 25
      split
      · constructor
        · rw [votesSubset, List.all_eq_true]
          intro kv hkv
          rw [closeVoteFn_votes] at hkv
          rw [closeVoteFn_emetteurs]
          exact (List.all_eq_true.mp h.1) kv hkv
        · rw [closeVoteFn_emetteurs]
          exact h.2
      · exact h
  | voteA odId valeur => exact invariant_voteStep p odId valeur h
  | reconnectA odId => exact invariant_reconnectPartyUpdate p odId h
  | disconnectA odId => exact invariant_disconnectPartyStep p odId h

/-! ## Preservation of the history shape -/

theorem historique_preserved (p : Party) (a : Action)
    (h : ∀ s, a ≠ Action.closeVoteA s) :
    (applyAction p a).historique = p.historique := by
  cases a with
  | joinA odId nom =>
      show (joinPartyUpdate p odId nom).historique = p.historique
      rw [joinPartyUpdate_frame]
  | closeDoorsA odId =>
      show (if odId = p.recepteurOdId then
        { p with etat := Etat.FERMEE } else p).historique = p.historique
      split <;> rfl
  | openVoteA odId tEnd =>
      show (if odId = p.recepteurOdId then
        { p with votes := [], moyenne := none, etat := Etat.VOTE_OUVERT,
                 timerEndTime := tEnd } else p).historique = p.historique
      split <;> rfl
  | closeVoteA s => exact absurd rfl (h s)
  | voteA odId valeur =>
      show (voteStep p odId valeur).1.historique = p.historique
      rw [voteStep_frame]
  | reconnectA odId =>
      show (reconnectPartyUpdate p odId).historique = p.historique
      rw [reconnectPartyUpdate_frame]
  | disconnectA odId =>
      show (disconnectPartyStep p odId).historique = p.historique
      rw [disconnectPartyStep_frame]

theorem numbered_closeVoteFn (p : Party)
    (hn : numberedFrom 0 p.historique = true) :
    numberedFrom 0 (closeVoteFn p).historique = true := by
  by_cases hv : p.votes = []
  · rw [closeVoteFn_historique_nil p hv]
    exact hn
  · rw [closeVoteFn_historique_pos p hv, numberedFrom_append, hn]
    simp

theorem numbered_reachable (p : Party) (hr : Reachable p) :
    numberedFrom 0 p.historique = true := by
  induction hr with
  | init code odId => rfl
  | step q a hq ih =>
      cases a with
      | closeVoteA odId =>
          show numberedFrom 0 (if odId = q.recepteurOdId then
            closeVoteFn q else q).historique = true
          split
          · exact numbered_closeVoteFn q ih
          · exact ih
      | joinA odId nom => rwa [historique_preserved q _ (by intro s; simp)]
      | closeDoorsA odId => rwa [historique_preserved q _ (by intro s; simp)]
      | openVoteA odId tEnd => rwa [historique_preserved q _ (by intro s; simp)]
      | voteA odId valeur => rwa [historique_preserved q _ (by intro s; simp)]
      | reconnectA odId => rwa [historique_preserved q _ (by intro s; simp)]
      | disconnectA odId => rwa [historique_preserved q _ (by intro s; simp)]

/-! ## voteStep branch equations -/

theorem voteStep_err_etat (p : Party) (odId : String) (valeur : Option Int)
    (h : p.etat ≠ Etat.VOTE_OUVERT) :
    voteStep p odId valeur = (p, .err "vote-pas-ouvert") := by
  unfold voteStep
  rw [if_pos h]

theorem voteStep_err_em (p : Party) (odId : String) (valeur : Option Int)
    (h1 : p.etat = Etat.VOTE_OUVERT) (h2 : alookup odId p.emetteurs = none) :
    voteStep p odId valeur = (p, .err "pas-emetteur") := by
  unfold voteStep
  rw [if_neg (by simp [h1]), if_pos (by simp [h2])]

theorem voteStep_err_none (p : Party) (odId : String)
    (h1 : p.etat = Etat.VOTE_OUVERT) (em : Emetteur)
    (h2 : alookup odId p.emetteurs = some em) :
    voteStep p odId none = (p, .err "valeur-invalide") := by
  unfold voteStep
  rw [if_neg (by simp [h1]), if_neg (by simp [h2])]

theorem voteStep_err_range (p : Party) (odId : String) (v : Int)
    (h1 : p.etat = Etat.VOTE_OUVERT) (em : Emetteur)
    (h2 : alookup odId p.emetteurs = some em) (h3 : v < 0 ∨ 6 < v) :
    voteStep p odId (some v) = (p, .err "valeur-invalide") := by
  unfold voteStep
  rw [if_neg (by simp [h1]), if_neg (by simp [h2])]
  show (if v < 0 ∨ 6 < v then _ else _) = _
  rw [if_pos h3]

theorem voteStep_ok (p : Party) (odId : String) (v : Int)
    (h1 : p.etat = Etat.VOTE_OUVERT) (em : Emetteur)
    (h2 : alookup odId p.emetteurs = some em) (h3 : ¬(v < 0 ∨ 6 < v)) :
    voteStep p odId (some v)
      = ({ p with votes := aset odId v.toNat p.votes }, .confirmed v) := by
  unfold voteStep
  rw [if_neg (by simp [h1]), if_neg (by simp [h2])]
  show (if v < 0 ∨ 6 < v then _ else _) = _
  rw [if_neg h3]

/-! ## The average, as the specification words it -/

/-- `round(sum(votes)/count * 10) / 10` with round-half-away-from-zero —
the spec's description of the one-decimal average. -/
def specAverage (party : Party) : ℚ :=
  (roundHalfAwayFromZero ((((party.votes.map Prod.snd).sum : ℚ) /
    ((party.votes.map Prod.snd).length : ℚ)) * 10) : ℚ) / 10

theorem specAverage_eq_avgOf (p : Party) : specAverage p = avgOf p := by
  unfold specAverage avgOf jsRound
  rw [roundHalfAwayFromZero_eq_jsRound]
  · rfl
  · positivity

/-! ## Concrete sessions used to witness the claims -/

/-- The spec's §8 scenario: three participants, votes 2, 4 and 6. -/
def pScenario : Party :=
  { code := "1234", recepteurOdId := "r", etat := Etat.VOTE_OUVERT,
    emetteurs := [("a", { id := "a", nom := "Ana", connecte := true }),
                  ("b", { id := "b", nom := "Bob", connecte := true }),
                  ("c", { id := "c", nom := "Cyd", connecte := true })],
    votes := [("a", 2), ("b", 4), ("c", 6)],
    moyenne := none, historique := [], timerEndTime := none }

/-- A voting session where participant `a` has already cast a 2. -/
def pVoteDemo : Party :=
  { code := "1234", recepteurOdId := "r", etat := Etat.VOTE_OUVERT,
    emetteurs := [("a", { id := "a", nom := "Ana", connecte := true })],
    votes := [("a", 2)],
    moyenne := none, historique := [], timerEndTime := none }

/-- Created, one join, vote opened, one vote cast. -/
def partyAfterVote : Party :=
  applyAction (applyAction (applyAction (initParty "1234" "r")
    (Action.joinA "a" " Ana ")) (Action.openVoteA "r" none))
    (Action.voteA "a" (some 4))

/-- `partyAfterVote` after the coordinator closes the round. -/
def partyAfterClose : Party :=
  applyAction partyAfterVote (Action.closeVoteA "r")

/-! ## Claim theorems -/

/-- C1: for every session in state `VOTING`, `closeVote` transitions it to
`RESULTS`; with a non-empty votes map it sets `average` to
`round(sum/count * 10) / 10` (one decimal, half away from zero) and appends
exactly one `Round` with that average and `voterCount = count`; with an
empty votes map it sets `average` to null and appends nothing while still
transitioning to `RESULTS`. -/
theorem closeVote_average_spec (party : Party) (_hv : party.etat = Etat.VOTE_OUVERT) :
    (closeVoteFn party).etat = Etat.VOTE_FERME ∧
    (party.votes ≠ [] →
      (closeVoteFn party).moyenne = some (specAverage party) ∧
      (closeVoteFn party).historique.map Round.moyenne
        = party.historique.map Round.moyenne ++ [specAverage party] ∧
      (closeVoteFn party).historique.map Round.nbVotants
        = party.historique.map Round.nbVotants ++ [(party.votes.map Prod.snd).length] ∧
      (closeVoteFn party).historique.map Round.numero
        = party.historique.map Round.numero ++ [party.historique.length + 1]) ∧
    (party.votes = [] →
      (closeVoteFn party).moyenne = none ∧
      (closeVoteFn party).historique = party.historique) := by
  refine ⟨closeVoteFn_etat party, fun hne => ?_, fun hnil =>
    ⟨closeVoteFn_moyenne_nil party hnil, closeVoteFn_historique_nil party hnil⟩⟩
  rw [closeVoteFn_moyenne_pos party hne, closeVoteFn_historique_pos party hne,
    specAverage_eq_avgOf]
  simp

/-- Witness for C1 on the spec's own scenario (votes 2, 4, 6 → average 4.0,
one history record with `voterCount = 3` and `sequenceNumber = 1`). -/
theorem closeVote_average_spec_witness :
    (closeVoteFn pScenario).etat = Etat.VOTE_FERME ∧
    (closeVoteFn pScenario).moyenne = some 4 ∧
    (closeVoteFn pScenario).historique.map Round.moyenne = [4] ∧
    (closeVoteFn pScenario).historique.map Round.nbVotants = [3] ∧
    (closeVoteFn pScenario).historique.map Round.numero = [1] := by
  have h := closeVote_average_spec pScenario rfl
  have hval : specAverage pScenario = 4 := by
    unfold specAverage pScenario roundHalfAwayFromZero
    norm_num [Int.floor_eq_iff]
  obtain ⟨hm, hl1, hl2, hl3⟩ := h.2.1 (by decide)
  rw [hval] at hm hl1
  exact ⟨h.1, hm, by simpa using hl1, by simpa using hl2, by simpa using hl3⟩

/-- C2: a vote succeeds exactly when the session is in `VOTING`, the caller
is a participant, and the (parsed) value is an integer in [0,6]; any
rejection leaves the stored session completely unchanged; a successful
re-vote silently overwrites the caller's previous value and the votes map
keeps exactly one entry per voting identity, every other entry untouched. -/
theorem castVote_spec (party : Party) (odId k : String) (valeur : Option Int)
    (hnd : (akeys party.votes).Nodup) (hk : k ≠ odId) :
    ((voteStep party odId valeur).2.isError = false ↔
      (party.etat = Etat.VOTE_OUVERT ∧ (alookup odId party.emetteurs).isSome = true ∧
        valeurValide valeur = true)) ∧
    ((voteStep party odId valeur).2.isError = true →
      (voteStep party odId valeur).1 = party) ∧
    ((voteStep party odId valeur).2.isError = false →
      alookup odId (voteStep party odId valeur).1.votes = valeur.map Int.toNat ∧
      alookup k (voteStep party odId valeur).1.votes = alookup k party.votes ∧
      (akeys (voteStep party odId valeur).1.votes).Nodup ∧
      (akeys (voteStep party odId valeur).1.votes).count odId = 1 ∧
      (voteStep party odId valeur).1
        = { party with votes := (voteStep party odId valeur).1.votes }) := by
  by_cases h1 : party.etat = Etat.VOTE_OUVERT
  · cases hem : alookup odId party.emetteurs with
    | none =>
        rw [voteStep_err_em party odId valeur h1 hem]
        simp [VoteOutcome.isError, hem]
    | some em =>
        cases valeur with
        | none =>
            rw [voteStep_err_none party odId h1 em hem]
            simp [VoteOutcome.isError, valeurValide]
        | some v =>
            by_cases h3 : v < 0 ∨ 6 < v
            · rw [voteStep_err_range party odId v h1 em hem h3]
              have hvv : valeurValide (some v) = false := by
                simp only [valeurValide, Bool.and_eq_false_iff, decide_eq_false_iff_not]
                omega
              simp [VoteOutcome.isError, hvv]
            · rw [voteStep_ok party odId v h1 em hem h3]
              refine ⟨?_, by simp [VoteOutcome.isError], fun _ => ?_⟩
              · simp only [VoteOutcome.isError]
                constructor
                · intro _
                  refine ⟨h1, by simp [hem], ?_⟩
                  simp only [valeurValide, Bool.and_eq_true, decide_eq_true_eq]
                  omega
                · intro _
                  trivial
              · refine ⟨?_, ?_, ?_, ?_, rfl⟩
                · show alookup odId (aset odId v.toNat party.votes) = _
                  rw [alookup_aset_self]
                  rfl
                · exact alookup_aset_of_ne odId k v.toNat party.votes hk
                · exact nodup_akeys_aset odId v.toNat party.votes hnd
                · exact count_akeys_aset odId v.toNat party.votes hnd
  · rw [voteStep_err_etat party odId valeur h1]
    simp [VoteOutcome.isError, h1]

/-- Witness for C2: in `pVoteDemo`, participant `a` re-votes 5 over its
earlier 2; the vote is accepted, overwrites, and touches nothing else. -/
theorem castVote_spec_witness :
    (voteStep pVoteDemo "a" (some 5)).2.isError = false ∧
    alookup "a" (voteStep pVoteDemo "a" (some 5)).1.votes = some 5 ∧
    alookup "b" (voteStep pVoteDemo "a" (some 5)).1.votes = alookup "b" pVoteDemo.votes ∧
    (akeys (voteStep pVoteDemo "a" (some 5)).1.votes).count "a" = 1 ∧
    (voteStep pVoteDemo "a" (some 5)).1
      = { pVoteDemo with votes := (voteStep pVoteDemo "a" (some 5)).1.votes } := by
  have h := castVote_spec pVoteDemo "a" "b" (some 5) (by decide) (by decide)
  have hsucc : (voteStep pVoteDemo "a" (some 5)).2.isError = false :=
    h.1.mpr ⟨rfl, by decide, by decide⟩
  obtain ⟨ha, hb, hnd, hcount, hframe⟩ := h.2.2 hsucc
  exact ⟨hsucc, by simpa using ha, hb, hcount, hframe⟩

/-- C4: in every reachable session, `history[i].sequenceNumber = i + 1`;
a `closeVote` with a non-empty votes map grows `history` by exactly one
record, appending (prefix preserved); every other operation leaves
`history` unchanged. -/
theorem history_numbering_spec (party : Party) (a : Action) (i : Nat)
    (hr : Reachable party) (hi : i < party.historique.length)
    (ha : ∀ s, a ≠ Action.closeVoteA s) :
    (party.historique.get ⟨i, hi⟩).numero = i + 1 ∧
    (applyAction party a).historique = party.historique ∧
    (party.votes ≠ [] →
      (closeVoteFn party).historique.length = party.historique.length + 1 ∧
      (closeVoteFn party).historique.take party.historique.length
        = party.historique) := by
  refine ⟨?_, historique_preserved party a ha, fun hv => ?_⟩
  · have hn := numbered_reachable party hr
    simpa using numberedFrom_get party.historique 0 i hi hn
  · rw [closeVoteFn_historique_pos party hv]
    exact ⟨by simp, List.take_left _ _⟩

/-- Witness for C4 on the reachable session `partyAfterClose` (one closed
round), checked against a `disconnect` action. -/
theorem history_numbering_spec_witness :
    (partyAfterClose.historique.get ⟨0, by decide⟩).numero = 0 + 1 ∧
    (applyAction partyAfterClose (Action.disconnectA "a")).historique
      = partyAfterClose.historique ∧
    ((closeVoteFn partyAfterClose).historique.length
        = partyAfterClose.historique.length + 1 ∧
      (closeVoteFn partyAfterClose).historique.take partyAfterClose.historique.length
        = partyAfterClose.historique) := by
  have h := history_numbering_spec partyAfterClose (Action.disconnectA "a") 0
    (Reachable.step _ _ (Reachable.step _ _ (Reachable.step _ _ (Reachable.step _ _
      (Reachable.init "1234" "r")))))
    (by decide) (fun s hs => Action.noConfusion hs)
  exact ⟨h.1, h.2.1, h.2.2 (by decide)⟩

/-- C5: in every reachable session state, the key set of `votes` is a
subset of the key set of `participants`, and the participant count never
exceeds 25. -/
theorem session_invariant_spec (party : Party) (hr : Reachable party) :
    votesSubset party = true ∧ party.emetteurs.length ≤ 25 := by
  induction hr with
  | init code odId => exact ⟨rfl, by simp [initParty]⟩
  | step q a hq ih => exact invariant_applyAction q a ih

/-- Witness for C5 on the reachable session `partyAfterVote`. -/
theorem session_invariant_spec_witness :
    votesSubset partyAfterVote = true ∧ partyAfterVote.emetteurs.length ≤ 25 :=
  session_invariant_spec partyAfterVote
    (Reachable.step _ _ (Reachable.step _ _ (Reachable.step _ _
      (Reachable.init "1234" "r"))))

/-! ## joinFin branch equations -/

theorem joinFin_nocode (w₁ : World) (socketId code nom odId : String)
    (hp : getParty w₁ code = none) :
    joinFin w₁ socketId code nom odId = (w₁, .errCodeInvalide) := by
  unfold joinFin
  rw [hp]

theorem joinFin_rejoined (w₁ : World) (socketId code nom odId : String)
    (party : Party) (em : Emetteur)
    (hp : getParty w₁ code = some party)
    (hem : alookup odId party.emetteurs = some em) :
    joinFin w₁ socketId code nom odId
      = (registerSocket { w₁ with
            parties := aset code (joinPartyUpdate party odId nom) w₁.parties,
            userParty := aset odId code w₁.userParty } socketId odId,
         .rejoined (alookup odId party.votes)) := by
  unfold joinFin
  rw [hp]
  dsimp only
  rw [hem]

theorem joinFin_full (w₁ : World) (socketId code nom odId : String)
    (party : Party)
    (hp : getParty w₁ code = some party)
    (hem : alookup odId party.emetteurs = none)
    (hfull : party.emetteurs.length ≥ 25) :
    joinFin w₁ socketId code nom odId = (w₁, .errMax) := by
  unfold joinFin
  rw [hp]
  dsimp only
  rw [hem]
  dsimp only
  rw [if_pos hfull]

theorem joinFin_joined (w₁ : World) (socketId code nom odId : String)
    (party : Party)
    (hp : getParty w₁ code = some party)
    (hem : alookup odId party.emetteurs = none)
    (hroom : ¬ party.emetteurs.length ≥ 25) :
    joinFin w₁ socketId code nom odId
      = (registerSocket { w₁ with
            parties := aset code (joinPartyUpdate party odId nom) w₁.parties,
            userParty := aset odId code w₁.userParty } socketId odId,
         .joined) := by
  unfold joinFin
  rw [hp]
  dsimp only
  rw [hem]
  dsimp only
  rw [if_neg hroom]

theorem joinFin_mod_userParty (w₁ : World) (socketId code nom odId : String)
    (up : List (String × String)) :
    ((joinFin { w₁ with userParty := up } socketId code nom odId).2
      = (joinFin w₁ socketId code nom odId).2) ∧
    ((joinFin { w₁ with userParty := up } socketId code nom odId).1.parties
      = (joinFin w₁ socketId code nom odId).1.parties) := by
  unfold joinFin
  have hgp : getParty { w₁ with userParty := up } code = getParty w₁ code := rfl
  rw [hgp]
  cases hp : getParty w₁ code with
  | none => exact ⟨rfl, rfl⟩
  | some party =>
      dsimp only
      cases hem : alookup odId party.emetteurs with
      | some em => exact ⟨rfl, rfl⟩
      | none =>
          dsimp only
          by_cases hfull : party.emetteurs.length ≥ 25
          · simp [hfull]
          · simp [hfull, registerSocket]

theorem joinStep_of_not_other (w : World) (socketId code nom odId : String)
    (hno : inOtherParty w odId code = false) :
    ((joinStep w socketId code nom odId).2 = (joinFin w socketId code nom odId).2) ∧
    ((joinStep w socketId code nom odId).1.parties
      = (joinFin w socketId code nom odId).1.parties) := by
  unfold joinStep
  unfold inOtherParty at hno
  cases hup : alookup odId w.userParty with
  | none => exact ⟨rfl, rfl⟩
  | some c =>
      rw [hup] at hno
      dsimp only at hno ⊢
      by_cases hg : c ≠ "" ∧ c ≠ code
      · rw [if_pos hg]
        cases hop : getParty w c with
        | some q =>
            exfalso
            rw [hop] at hno
            simp [bne_iff_ne, hg.1, hg.2] at hno
        | none =>
            exact joinFin_mod_userParty w socketId code nom odId (adel odId w.userParty)
      · rw [if_neg hg]
        exact ⟨rfl, rfl⟩

/-! ## Concrete sessions for the join claims -/

/-- A doors-closed session with one known participant who has voted 3. -/
def pDemoFermee : Party :=
  { code := "1234", recepteurOdId := "r", etat := Etat.FERMEE,
    emetteurs := [("a", { id := "a", nom := "Ana", connecte := true })],
    votes := [("a", 3)],
    moyenne := none, historique := [], timerEndTime := none }

/-- The world holding `pDemoFermee`. -/
def wDemoFermee : World :=
  { parties := [("1234", pDemoFermee)], userParty := [("a", "1234")],
    odToSocket := [], socketToOd := [] }

/-- A session already holding 25 participants; `"3"` has voted 5. -/
def pFull : Party :=
  { code := "1234", recepteurOdId := "r", etat := Etat.VOTE_OUVERT,
    emetteurs := (List.range 25).map fun i =>
      (Nat.repr i, { id := Nat.repr i, nom := Nat.repr i, connecte := false }),
    votes := [("3", 5)],
    moyenne := none, historique := [], timerEndTime := none }

/-- The world holding `pFull`. -/
def wFull : World :=
  { parties := [("1234", pFull)], userParty := [], odToSocket := [], socketToOd := [] }

/-- C3 counterexample: in `wDemoFermee` the session is in state `FERMEE`
(doors closed, not `OPEN`), yet a brand-new identity `"z"` joins
successfully — the claimed only-while-`OPEN` restriction is not enforced. -/
theorem join_requires_open_counterexample :
    (joinStep wDemoFermee "s1" "1234" "Zoe" "z").2 = JoinOutcome.joined ∧
    pDemoFermee.etat ≠ Etat.OUVERTE := by decide

/-- C3 (amended): `join` never consults the session state — a new identity
joins successfully in ANY state provided the session exists, the identity
is not bound to a different live session, and the participant count is
below 25; it is rejected exactly on those three conditions; an identity
already known to the session rejoins in any state. -/
theorem join_spec (w : World) (socketId code nom odId : String) (party : Party) :
    (inOtherParty w odId code = true →
      joinStep w socketId code nom odId = (w, JoinOutcome.errAutreParty)) ∧
    (inOtherParty w odId code = false →
      (getParty w code = none →
        (joinStep w socketId code nom odId).2 = JoinOutcome.errCodeInvalide ∧
        (joinStep w socketId code nom odId).1.parties = w.parties) ∧
      (getParty w code = some party →
        ((alookup odId party.emetteurs).isSome = true →
          (joinStep w socketId code nom odId).2
            = JoinOutcome.rejoined (alookup odId party.votes)) ∧
        (alookup odId party.emetteurs = none →
          (party.emetteurs.length ≥ 25 →
            (joinStep w socketId code nom odId).2 = JoinOutcome.errMax ∧
            (joinStep w socketId code nom odId).1.parties = w.parties) ∧
          (party.emetteurs.length < 25 →
            (joinStep w socketId code nom odId).2 = JoinOutcome.joined ∧
            getParty (joinStep w socketId code nom odId).1 code
              = some (joinPartyUpdate party odId nom))))) := by
  constructor
  · intro hyes
    unfold inOtherParty at hyes
    unfold joinStep
    cases hup : alookup odId w.userParty with
    | none => rw [hup] at hyes; exact absurd hyes (by simp)
    | some c =>
        rw [hup] at hyes
        dsimp only at hyes ⊢
        simp only [Bool.and_eq_true, bne_iff_ne, Option.isSome_iff_exists] at hyes
        obtain ⟨⟨hc1, hc2⟩, q, hq⟩ := hyes
        rw [if_pos ⟨hc1, hc2⟩, hq]
  · intro hno
    have hmain := joinStep_of_not_other w socketId code nom odId hno
    constructor
    · intro hp
      rw [joinFin_nocode w socketId code nom odId hp] at hmain
      exact hmain
    · intro hp
      have hcode : code ≠ "" := by
        intro hcc
        rw [hcc] at hp
        simp [getParty] at hp
      constructor
      · intro hsome
        obtain ⟨em, hem⟩ := Option.isSome_iff_exists.mp hsome
        rw [joinFin_rejoined w socketId code nom odId party em hp hem] at hmain
        exact hmain.1
      · intro hem
        constructor
        · intro hfull
          rw [joinFin_full w socketId code nom odId party hp hem hfull] at hmain
          exact hmain
        · intro hroom
          rw [joinFin_joined w socketId code nom odId party hp hem (by omega)] at hmain
          refine ⟨hmain.1, ?_⟩
          unfold getParty
          rw [if_neg hcode, hmain.2]
          show alookup code (aset code _ _) = _
          rw [alookup_aset_self]

/-- Witness for C3 (amended): in the doors-closed world `wDemoFermee`, the
fresh identity `"z"` joins, the known identity `"a"` rejoins with its vote
restored, and the session state is not `OPEN`. -/
theorem join_spec_witness :
    (joinStep wDemoFermee "s1" "1234" "Zoe" "z").2 = JoinOutcome.joined ∧
    (joinStep wDemoFermee "s2" "1234" "ignored" "a").2 = JoinOutcome.rejoined (some 3) ∧
    pDemoFermee.etat ≠ Etat.OUVERTE := by
  have h1 := join_spec wDemoFermee "s1" "1234" "Zoe" "z" pDemoFermee
  have h2 := join_spec wDemoFermee "s2" "1234" "ignored" "a" pDemoFermee
  refine ⟨((((h1.2 (by decide)).2 (by decide)).2 (by decide)).2 (by decide)).1, ?_, by decide⟩
  have hrj := ((h2.2 (by decide)).2 (by decide)).1 (by decide)
  have hv : alookup "a" pDemoFermee.votes = some 3 := by decide
  rw [hv] at hrj
  exact hrj

/-- C10: a `join` by an identity already known to the session only raises
that participant's `connecte` flag: the supplied display name is ignored
(the stored name and even the whole update are independent of it), the
cast vote is preserved and re-delivered, no other field changes, the key
set is unchanged, and no capacity condition is required. -/
theorem rejoin_frame_spec (w : World) (socketId code nom nom₂ odId : String)
    (party : Party) (em : Emetteur)
    (hno : inOtherParty w odId code = false)
    (hp : getParty w code = some party)
    (hem : alookup odId party.emetteurs = some em) :
    (joinStep w socketId code nom odId).2
      = JoinOutcome.rejoined (alookup odId party.votes) ∧
    getParty (joinStep w socketId code nom odId).1 code
      = some { party with
          emetteurs := aset odId { em with connecte := true } party.emetteurs } ∧
    joinPartyUpdate party odId nom = joinPartyUpdate party odId nom₂ ∧
    (joinPartyUpdate party odId nom).votes = party.votes ∧
    alookup odId (joinPartyUpdate party odId nom).emetteurs
      = some { em with connecte := true } ∧
    akeys (joinPartyUpdate party odId nom).emetteurs = akeys party.emetteurs := by
  have hjpu : joinPartyUpdate party odId nom
      = { party with emetteurs := aset odId { em with connecte := true } party.emetteurs } := by
    unfold joinPartyUpdate
    rw [hem]
  have hjpu₂ : joinPartyUpdate party odId nom₂
      = { party with emetteurs := aset odId { em with connecte := true } party.emetteurs } := by
    unfold joinPartyUpdate
    rw [hem]
  have hcode : code ≠ "" := by
    intro hcc
    rw [hcc] at hp
    simp [getParty] at hp
  have hmain := joinStep_of_not_other w socketId code nom odId hno
  rw [joinFin_rejoined w socketId code nom odId party em hp hem] at hmain
  refine ⟨hmain.1, ?_, hjpu.trans hjpu₂.symm, by rw [hjpu], ?_, ?_⟩
  · unfold getParty
    rw [if_neg hcode, hmain.2]
    show alookup code (aset code _ _) = _
    rw [alookup_aset_self, hjpu]
  · rw [hjpu]
    show alookup odId (aset odId _ _) = _
    rw [alookup_aset_self]
  · rw [hjpu]
    show akeys (aset odId _ _) = _
    rw [akeys_aset]
    simp [hem]

/-- Witness for C10: the session `pFull` already holds 25 participants and
identity `"3"` (prior vote 5) still rejoins with its stored name kept and
its vote re-delivered. -/
theorem rejoin_frame_spec_witness :
    pFull.emetteurs.length = 25 ∧
    (joinStep wFull "s9" "1234" "NewName" "3").2 = JoinOutcome.rejoined (some 5) ∧
    alookup "3" (joinPartyUpdate pFull "3" "NewName").emetteurs
      = some { id := "3", nom := "3", connecte := true } ∧
    (joinPartyUpdate pFull "3" "NewName").votes = pFull.votes ∧
    joinPartyUpdate pFull "3" "NewName" = joinPartyUpdate pFull "3" "Other" ∧
    akeys (joinPartyUpdate pFull "3" "NewName").emetteurs = akeys pFull.emetteurs := by
  have h := rejoin_frame_spec wFull "s9" "1234" "NewName" "Other" "3" pFull
    { id := "3", nom := "3", connecte := false } (by decide) (by decide) (by decide)
  have hv : alookup "3" pFull.votes = some 5 := by decide
  obtain ⟨h1, h2, h3, h4, h5, h6⟩ := h
  rw [hv] at h1
  exact ⟨by decide, h1, h5, h4, h3, h6⟩

/-! ## Reconnection (C6) -/

/-- A voting session whose participant `e` (vote 4) is disconnected. -/
def pRec : Party :=
  { code := "1234", recepteurOdId := "r", etat := Etat.VOTE_OUVERT,
    emetteurs := [("e", { id := "e", nom := "Eve", connecte := false })],
    votes := [("e", 4)],
    moyenne := none, historique := [], timerEndTime := none }

/-- The world holding `pRec`. -/
def wRec : World :=
  { parties := [("1234", pRec)], userParty := [], odToSocket := [], socketToOd := [] }

/-- C6: a reconnect with an unknown code or an identity that is neither the
coordinator nor a participant answers with the distinct `reconnect-failed`
outcome and changes nothing; a coordinator reconnect re-binds the routing
table and stores nothing; a participant reconnect re-binds the routing
table, raises only that participant's `connecte` flag, re-delivers the
already-cast vote for the active round, and leaves the participant key set
(and the votes) unchanged, so nobody appears twice. -/
theorem reconnect_spec (w : World) (socketId odId code : String) (party : Party)
    (h1 : odId ≠ "") (h2 : code ≠ "") :
    (getParty w code = none →
      reconnectStep w socketId odId code = (w, ReconnectOutcome.failed)) ∧
    (getParty w code = some party →
      (party.recepteurOdId = odId →
        (reconnectStep w socketId odId code).2 = ReconnectOutcome.recepteurOk ∧
        alookup odId (reconnectStep w socketId odId code).1.odToSocket = some socketId ∧
        (reconnectStep w socketId odId code).1.parties = w.parties) ∧
      (party.recepteurOdId ≠ odId →
        ((alookup odId party.emetteurs).isSome = true →
          (reconnectStep w socketId odId code).2
            = ReconnectOutcome.emetteurOk (alookup odId party.votes) ∧
          alookup odId (reconnectStep w socketId odId code).1.odToSocket = some socketId ∧
          getParty (reconnectStep w socketId odId code).1 code
            = some (reconnectPartyUpdate party odId) ∧
          (alookup odId (reconnectPartyUpdate party odId).emetteurs).map Emetteur.connecte
            = some true ∧
          akeys (reconnectPartyUpdate party odId).emetteurs = akeys party.emetteurs ∧
          (reconnectPartyUpdate party odId).votes = party.votes) ∧
        (alookup odId party.emetteurs = none →
          reconnectStep w socketId odId code = (w, ReconnectOutcome.failed)))) := by
  have hguard : ¬(odId = "" ∨ code = "") := by simp [h1, h2]
  unfold reconnectStep
  rw [if_neg hguard]
  constructor
  · intro hp
    rw [hp]
  · intro hp
    rw [hp]
    dsimp only
    constructor
    · intro hrec
      rw [if_pos hrec]
      refine ⟨rfl, ?_, rfl⟩
      show alookup odId (aset odId socketId w.odToSocket) = some socketId
      exact alookup_aset_self _ _ _
    · intro hnrec
      rw [if_neg hnrec]
      have hrpu0 : reconnectPartyUpdate party odId
          = match alookup odId party.emetteurs with
            | some em =>
                { party with
                    emetteurs := aset odId { em with connecte := true } party.emetteurs }
            | none => party := by
        unfold reconnectPartyUpdate
        rw [if_neg hnrec]
      constructor
      · intro hsome
        obtain ⟨em, hem⟩ := Option.isSome_iff_exists.mp hsome
        rw [hem]
        dsimp only
        have hrpu : reconnectPartyUpdate party odId
            = { party with
                  emetteurs := aset odId { em with connecte := true } party.emetteurs } := by
          rw [hrpu0, hem]
        refine ⟨rfl, ?_, ?_, ?_, ?_, ?_⟩
        · show alookup odId (aset odId socketId w.odToSocket) = some socketId
          exact alookup_aset_self _ _ _
        · unfold getParty
          rw [if_neg h2]
          show alookup code (aset code _ _) = _
          rw [alookup_aset_self]
        · rw [hrpu]
          show (alookup odId (aset odId _ _)).map Emetteur.connecte = _
          rw [alookup_aset_self]
          rfl
        · rw [hrpu]
          show akeys (aset odId _ _) = _
          rw [akeys_aset]
          simp [hem]
        · rw [hrpu]
      · intro hnone
        rw [hnone]

/-- Witness for C6: participant `e` reconnects into `wRec` (vote 4 restored,
flag raised, no duplication); an unknown identity and an unknown code both
get `reconnect-failed`. -/
theorem reconnect_spec_witness :
    (reconnectStep wRec "s1" "e" "1234").2 = ReconnectOutcome.emetteurOk (some 4) ∧
    alookup "e" (reconnectStep wRec "s1" "e" "1234").1.odToSocket = some "s1" ∧
    getParty (reconnectStep wRec "s1" "e" "1234").1 "1234"
      = some (reconnectPartyUpdate pRec "e") ∧
    (alookup "e" (reconnectPartyUpdate pRec "e").emetteurs).map Emetteur.connecte
      = some true ∧
    akeys (reconnectPartyUpdate pRec "e").emetteurs = akeys pRec.emetteurs ∧
    (reconnectPartyUpdate pRec "e").votes = pRec.votes ∧
    reconnectStep wRec "s1" "zz" "1234" = (wRec, ReconnectOutcome.failed) ∧
    reconnectStep wRec "s1" "e" "9999" = (wRec, ReconnectOutcome.failed) := by
  have h := reconnect_spec wRec "s1" "e" "1234" pRec (by decide) (by decide)
  have hz := reconnect_spec wRec "s1" "zz" "1234" pRec (by decide) (by decide)
  have hc := reconnect_spec wRec "s1" "e" "9999" pRec (by decide) (by decide)
  obtain ⟨ho, hs, hg, hcn, hak, hvv⟩ := ((h.2 (by decide)).2 (by decide)).1 (by decide)
  have hv : alookup "e" pRec.votes = some 4 := by decide
  rw [hv] at ho
  exact ⟨ho, hs, hg, hcn, hak, hvv,
    ((hz.2 (by decide)).2 (by decide)).2 (by decide),
    hc.1 (by decide)⟩

/-! ## Disconnect (C7) -/

theorem unregisterSocket_spec (w : World) (socketId : String) :
    (unregisterSocket w socketId).1.parties = w.parties ∧
    (unregisterSocket w socketId).1.userParty = w.userParty ∧
    (unregisterSocket w socketId).2 = alookup socketId w.socketToOd := by
  unfold unregisterSocket
  cases h : alookup socketId w.socketToOd with
  | none => exact ⟨rfl, rfl, rfl⟩
  | some odId =>
      dsimp only
      split <;> exact ⟨rfl, rfl, rfl⟩

theorem disconnectStep_parties (w : World) (socketId code : String) (party : Party)
    (hp : alookup code w.parties = some party) :
    akeys (disconnectStep w socketId).parties = akeys w.parties ∧
    (alookup code (disconnectStep w socketId).parties = some party ∨
      alookup code (disconnectStep w socketId).parties
        = some (disconnectPartyStep party ((alookup socketId w.socketToOd).getD ""))) := by
  obtain ⟨hup1, hup2, hup3⟩ := unregisterSocket_spec w socketId
  unfold disconnectStep
  cases hu : unregisterSocket w socketId with
  | mk w₁ opt =>
      rw [hu] at hup1 hup2 hup3
      dsimp only at hup1 hup2 hup3 ⊢
      cases opt with
      | none => exact ⟨by rw [hup1], Or.inl (by rw [hup1]; exact hp)⟩
      | some odId =>
          dsimp only
          by_cases ho : odId = ""
          · rw [if_pos ho]
            exact ⟨by rw [hup1], Or.inl (by rw [hup1]; exact hp)⟩
          · rw [if_neg ho]
            cases hcode2 : alookup odId w₁.userParty with
            | none => exact ⟨by rw [hup1], Or.inl (by rw [hup1]; exact hp)⟩
            | some code₂ =>
                dsimp only
                by_cases hc2 : code₂ = ""
                · rw [if_pos hc2]
                  exact ⟨by rw [hup1], Or.inl (by rw [hup1]; exact hp)⟩
                · rw [if_neg hc2]
                  cases hgp : getParty w₁ code₂ with
                  | none =>
                      dsimp only
                      exact ⟨by rw [hup1], Or.inl (by rw [hup1]; exact hp)⟩
                  | some party₂ =>
                      dsimp only
                      have hpc2 : alookup code₂ w₁.parties = some party₂ := by
                        unfold getParty at hgp
                        rw [if_neg hc2] at hgp
                        exact hgp
                      by_cases hrec : party₂.recepteurOdId = odId
                      · rw [if_pos hrec]
                        exact ⟨by rw [hup1], Or.inl (by rw [hup1]; exact hp)⟩
                      · rw [if_neg hrec]
                        by_cases hmem : (alookup odId party₂.emetteurs).isSome = true
                        · rw [if_pos hmem]
                          constructor
                          · show akeys (aset code₂ _ w₁.parties) = akeys w.parties
                            rw [akeys_aset]
                            simp only [hpc2, Option.isSome_some, if_true]
                            rw [hup1]
                          · by_cases hcc : code₂ = code
                            · subst hcc
                              right
                              show alookup code₂ (aset code₂ _ _) = _
                              rw [alookup_aset_self]
                              have hpp : party₂ = party := by
                                rw [hup1] at hpc2
                                rw [hp] at hpc2
                                exact (Option.some_inj.mp hpc2).symm
                              rw [hpp, ← hup3]
                              rfl
                            · left
                              show alookup code (aset code₂ _ _) = _
                              rw [alookup_aset_of_ne code₂ code _ _ (Ne.symm hcc), hup1]
                              exact hp
                        · rw [if_neg hmem]
                          exact ⟨by rw [hup1], Or.inl (by rw [hup1]; exact hp)⟩

/-- C7: a transport disconnect never removes a session from the store, never
removes a participant and never removes a vote; the stored session changes
at most in one participant's `connecte` flag (set to `false`), and when the
disconnecting identity is the coordinator the stored session is entirely
unchanged. -/
theorem disconnect_frame_spec (w : World) (socketId code o k : String) (party : Party)
    (hp : alookup code w.parties = some party) (hk : k ≠ o) :
    akeys (disconnectStep w socketId).parties = akeys w.parties ∧
    (alookup code (disconnectStep w socketId).parties = some party ∨
      alookup code (disconnectStep w socketId).parties
        = some (disconnectPartyStep party ((alookup socketId w.socketToOd).getD ""))) ∧
    (disconnectPartyStep party o).votes = party.votes ∧
    (disconnectPartyStep party o).historique = party.historique ∧
    (disconnectPartyStep party o).moyenne = party.moyenne ∧
    (disconnectPartyStep party o).etat = party.etat ∧
    disconnectPartyStep party o
      = { party with emetteurs := (disconnectPartyStep party o).emetteurs } ∧
    akeys (disconnectPartyStep party o).emetteurs = akeys party.emetteurs ∧
    (party.recepteurOdId = o → disconnectPartyStep party o = party) ∧
    alookup k (disconnectPartyStep party o).emetteurs = alookup k party.emetteurs ∧
    (party.recepteurOdId ≠ o →
      alookup o (disconnectPartyStep party o).emetteurs
        = (alookup o party.emetteurs).map fun em => { em with connecte := false }) := by
  obtain ⟨hw1, hw2⟩ := disconnectStep_parties w socketId code party hp
  refine ⟨hw1, hw2, by rw [disconnectPartyStep_frame party o],
    by rw [disconnectPartyStep_frame party o],
    by rw [disconnectPartyStep_frame party o],
    by rw [disconnectPartyStep_frame party o],
    disconnectPartyStep_frame party o, ?_, ?_, ?_, ?_⟩
  · unfold disconnectPartyStep
    by_cases hr : party.recepteurOdId = o
    · rw [if_pos hr]
    · rw [if_neg hr]
      cases hem : alookup o party.emetteurs with
      | some em =>
          show akeys (aset o _ _) = _
          rw [akeys_aset]
          simp [hem]
      | none => rfl
  · intro hr
    unfold disconnectPartyStep
    rw [if_pos hr]
  · unfold disconnectPartyStep
    by_cases hr : party.recepteurOdId = o
    · rw [if_pos hr]
    · rw [if_neg hr]
      cases hem : alookup o party.emetteurs with
      | some em =>
          show alookup k (aset o _ _) = _
          rw [alookup_aset_of_ne o k _ _ hk]
      | none => rfl
  · intro hr
    unfold disconnectPartyStep
    rw [if_neg hr]
    cases hem : alookup o party.emetteurs with
    | some em =>
        show alookup o (aset o _ _) = _
        rw [alookup_aset_self]
        rfl
    | none => exact hem

/-- The world holding `pRec` with participant `e` routed through socket
`s1` and the coordinator `r` through socket `s0`. -/
def wDisc : World :=
  { parties := [("1234", pRec)], userParty := [("e", "1234"), ("r", "1234")],
    odToSocket := [("e", "s1"), ("r", "s0")],
    socketToOd := [("s1", "e"), ("s0", "r")] }

/-- Witness for C7: disconnecting participant `e`'s socket keeps the
session, its participant and its vote; disconnecting the coordinator
changes the stored session not at all. -/
theorem disconnect_frame_spec_witness :
    akeys (disconnectStep wDisc "s1").parties = akeys wDisc.parties ∧
    (alookup "1234" (disconnectStep wDisc "s1").parties = some pRec ∨
      alookup "1234" (disconnectStep wDisc "s1").parties
        = some (disconnectPartyStep pRec ((alookup "s1" wDisc.socketToOd).getD ""))) ∧
    (disconnectPartyStep pRec "e").votes = pRec.votes ∧
    (disconnectPartyStep pRec "e").historique = pRec.historique ∧
    akeys (disconnectPartyStep pRec "e").emetteurs = akeys pRec.emetteurs ∧
    alookup "x" (disconnectPartyStep pRec "e").emetteurs
      = alookup "x" pRec.emetteurs ∧
    alookup "e" (disconnectPartyStep pRec "e").emetteurs
      = (alookup "e" pRec.emetteurs).map (fun em => { em with connecte := false }) ∧
    disconnectPartyStep pRec "r" = pRec := by
  have h := disconnect_frame_spec wDisc "s1" "1234" "e" "x" pRec (by decide) (by decide)
  have hr := disconnect_frame_spec wDisc "s0" "1234" "r" "x" pRec (by decide) (by decide)
  obtain ⟨a1, a2, a3, a4, a5, a6, a7, a8, a9, a10, a11⟩ := h
  exact ⟨a1, a2, a3, a4, a8, a10, a11 (by decide), (hr.2.2.2.2.2.2.2.2.1) (by decide)⟩

/-! ## Round timer (C8) -/

theorem jsRound_nonpos_iff (q : ℚ) : jsRound q ≤ 0 ↔ q < 1/2 := by
  unfold jsRound
  constructor
  · intro h
    have h1 : ⌊q + 1/2⌋ < 1 := by omega
    have h2 : q + 1/2 < ((1 : ℤ) : ℚ) := Int.floor_lt.mp h1
    push_cast at h2
    linarith
  · intro h
    have h2 : q + 1/2 < ((1 : ℤ) : ℚ) := by push_cast; linarith
    have := Int.floor_lt.mpr h2
    omega

theorem tick_threshold (d now : Int) :
    (((d : ℚ) - (now : ℚ)) / 1000 < 1/2) ↔ (d - 500 < now) := by
  rw [div_lt_iff₀ (by norm_num : (0:ℚ) < 1000)]
  constructor
  · intro h
    have h1 : ((d : ℚ) - (now : ℚ)) < 500 := by linarith
    have h2 : ((d - now : ℤ) : ℚ) < ((500 : ℤ) : ℚ) := by push_cast; linarith
    have := Int.cast_lt.mp h2
    omega
  · intro h
    have h1 : (d - now : ℤ) < 500 := by omega
    have h2 : ((d - now : ℤ) : ℚ) < ((500 : ℤ) : ℚ) := Int.cast_lt.mpr h1
    push_cast at h2
    linarith

theorem timerTick_fires (w : World) (code : String) (now d : Int) (party : Party)
    (hp : getParty w code = some party) (hd : party.timerEndTime = some d)
    (hlt : d - 500 < now) :
    timerTick w code now = TickResult.closed (closeVoteFn party) := by
  unfold timerTick
  rw [hp]
  dsimp only
  rw [hd]
  dsimp only
  rw [if_pos ((jsRound_nonpos_iff _).mpr ((tick_threshold d now).mpr hlt))]

theorem timerTick_noWrite (w : World) (code : String) (now d : Int) (party : Party)
    (hp : getParty w code = some party) (hd : party.timerEndTime = some d)
    (hge : now ≤ d - 500) :
    timerTick w code now = TickResult.noWrite := by
  unfold timerTick
  rw [hp]
  dsimp only
  rw [hd]
  dsimp only
  rw [if_neg]
  intro hc
  have := (jsRound_nonpos_iff _).mp hc
  rw [tick_threshold] at this
  omega

/-- The armed voting session behind `wTimer`: deadline at t = 1000 ms. -/
def pTimer : Party :=
  { code := "4321", recepteurOdId := "r", etat := Etat.VOTE_OUVERT,
    emetteurs := [], votes := [], moyenne := none, historique := [],
    timerEndTime := some 1000 }

/-- The world holding `pTimer`. -/
def wTimer : World :=
  { parties := [("4321", pTimer)], userParty := [], odToSocket := [], socketToOd := [] }

/-- C8 counterexample: at `now = 501` — strictly before the 1000 ms deadline
— the tick already performs the closing store write, because
`remaining = Math.round(499/1000) = 0 ≤ 0`; so a tick before the deadline
does NOT always leave the store untouched. -/
theorem timer_tick_early_close_counterexample :
    timerTick wTimer "4321" 501 = TickResult.closed (closeVoteFn pTimer) ∧
    (501 : Int) < 1000 ∧ pTimer.timerEndTime = some 1000 :=
  ⟨timerTick_fires wTimer "4321" 501 1000 pTimer (by decide) rfl (by norm_num),
   by norm_num, rfl⟩

/-- C8 (amended): a timer tick at time `now` performs exactly the manual
coordinator `closeVote` transformation — and disarms the timer — if and
only if `now` is later than `deadline − 500 ms` (the `Math.round` in the
expiry check fires up to half a second early); a tick at or before
`deadline − 500 ms` writes nothing to the store and broadcasts nothing. -/
theorem timer_tick_spec (w : World) (code : String) (now d : Int) (party : Party)
    (hp : getParty w code = some party) (hd : party.timerEndTime = some d) :
    (d - 500 < now →
      timerTick w code now
        = TickResult.closed (applyAction party (Action.closeVoteA party.recepteurOdId)) ∧
      (applyAction party (Action.closeVoteA party.recepteurOdId)).timerEndTime = none) ∧
    (now ≤ d - 500 → timerTick w code now = TickResult.noWrite) := by
  have hman : applyAction party (Action.closeVoteA party.recepteurOdId)
      = closeVoteFn party := by
    show (if party.recepteurOdId = party.recepteurOdId then closeVoteFn party else party) = _
    rw [if_pos rfl]
  refine ⟨fun h => ⟨?_, ?_⟩, fun h => timerTick_noWrite w code now d party hp hd h⟩
  · rw [hman]
    exact timerTick_fires w code now d party hp hd h
  · rw [hman]
    exact closeVoteFn_timer party

/-- Witness for C8 (amended): in `wTimer`, a tick at 2000 ms (after the
deadline) closes exactly as a manual coordinator close and clears the
deadline; a tick at 200 ms writes nothing. -/
theorem timer_tick_spec_witness :
    timerTick wTimer "4321" 2000
      = TickResult.closed (applyAction pTimer (Action.closeVoteA pTimer.recepteurOdId)) ∧
    (applyAction pTimer (Action.closeVoteA pTimer.recepteurOdId)).timerEndTime = none ∧
    timerTick wTimer "4321" 200 = TickResult.noWrite := by
  have h := timer_tick_spec wTimer "4321" 2000 1000 pTimer (by decide) rfl
  have h2 := timer_tick_spec wTimer "4321" 200 1000 pTimer (by decide) rfl
  obtain ⟨hc, hn⟩ := h.1 (by norm_num)
  exact ⟨hc, hn, h2.2 (by norm_num)⟩

/-! ## Code generation (C9) -/

theorem candidateCode_bounds (q : ℚ) (h0 : 0 ≤ q) (h1 : q < 1) :
    1000 ≤ candidateCode q ∧ candidateCode q ≤ 9999 := by
  unfold candidateCode
  have hlb : (1000 : ℤ) ≤ ⌊(1000 : ℚ) + q * 9000⌋ := by
    apply Int.le_floor.mpr
    push_cast
    nlinarith
  have hub : ⌊(1000 : ℚ) + q * 9000⌋ < 10000 := by
    apply Int.floor_lt.mpr
    push_cast
    nlinarith
  omega

theorem toDigitsCore_shift (f n : ℕ) (l : List Char) (h : ¬ n / 10 = 0) :
    Nat.toDigitsCore 10 (f + 1) n l
      = Nat.toDigitsCore 10 f (n / 10) (Nat.digitChar (n % 10) :: l) := by
  simp [Nat.toDigitsCore, h]

theorem toDigitsCore_stop (f n : ℕ) (l : List Char) (h : n / 10 = 0) :
    Nat.toDigitsCore 10 (f + 1) n l = Nat.digitChar (n % 10) :: l := by
  simp [Nat.toDigitsCore, h]

theorem toDigits_four (n : ℕ) (h1 : 1000 ≤ n) (h2 : n ≤ 9999) :
    Nat.toDigits 10 n
      = [Nat.digitChar (n / 1000 % 10), Nat.digitChar (n / 100 % 10),
         Nat.digitChar (n / 10 % 10), Nat.digitChar (n % 10)] := by
  obtain ⟨f, hf⟩ : ∃ f, n + 1 = f + 4 := ⟨n - 3, by omega⟩
  have d1 : ¬ n / 10 = 0 := by omega
  have d2 : ¬ n / 10 / 10 = 0 := by omega
  have d3 : ¬ n / 10 / 10 / 10 = 0 := by omega
  have d4 : n / 10 / 10 / 10 / 10 = 0 := by omega
  unfold Nat.toDigits
  rw [hf, show f + 4 = (f + 3) + 1 from rfl, toDigitsCore_shift (f + 3) n [] d1,
    show f + 3 = (f + 2) + 1 from rfl, toDigitsCore_shift (f + 2) (n / 10) _ d2,
    show f + 2 = (f + 1) + 1 from rfl, toDigitsCore_shift (f + 1) (n / 10 / 10) _ d3,
    toDigitsCore_stop f (n / 10 / 10 / 10) _ d4]
  have e2 : n / 10 / 10 = n / 100 := by omega
  have e3 : n / 10 / 10 / 10 = n / 1000 := by omega
  rw [e3, e2]

theorem repr_four (n : ℕ) (h1 : 1000 ≤ n) (h2 : n ≤ 9999) :
    (Nat.repr n).length = 4 ∧ (Nat.repr n).data.all Char.isDigit = true := by
  have ht := toDigits_four n h1 h2
  have hdata : (Nat.repr n).data = Nat.toDigits 10 n := rfl
  have hd : ∀ m, m < 10 → (Nat.digitChar m).isDigit = true := by decide
  constructor
  · show (Nat.repr n).data.length = 4
    rw [hdata, ht]
    rfl
  · rw [hdata, ht]
    simp only [List.all_cons, List.all_nil, Bool.and_true, Bool.and_eq_true]
    exact ⟨hd _ (Nat.mod_lt _ (by norm_num)), hd _ (Nat.mod_lt _ (by norm_num)),
      hd _ (Nat.mod_lt _ (by norm_num)), hd _ (Nat.mod_lt _ (by norm_num))⟩

/-- C9: a successfully generated session code is a string of exactly 4
numeric digits and is, at generation time, distinct from every live
session's code (a colliding draw is discarded and the next draw tried). -/
theorem generateCode_spec (w : World) (draws : List ℚ) (c : String)
    (hq : ∀ q ∈ draws, 0 ≤ q ∧ q < 1)
    (hc : generateCode w draws = some c) :
    c.length = 4 ∧ c.data.all Char.isDigit = true ∧ alookup c w.parties = none := by
  induction draws with
  | nil => simp [generateCode] at hc
  | cons q rest ih =>
      unfold generateCode at hc
      dsimp only at hc
      by_cases hex : (alookup (Nat.repr (candidateCode q)) w.parties).isSome = true
      · rw [if_pos hex] at hc
        exact ih (fun r hr => hq r (List.mem_cons_of_mem q hr)) hc
      · rw [if_neg hex] at hc
        obtain ⟨h0, h1⟩ := hq q (List.mem_cons_self q rest)
        obtain ⟨hlb, hub⟩ := candidateCode_bounds q h0 h1
        obtain ⟨hlen, hdig⟩ := repr_four (candidateCode q) hlb hub
        have hcc : c = Nat.repr (candidateCode q) := (Option.some_inj.mp hc).symm
        subst hcc
        refine ⟨hlen, hdig, ?_⟩
        cases hcase : alookup (Nat.repr (candidateCode q)) w.parties with
        | none => rfl
        | some _ => simp [hcase] at hex

/-- The world used to witness C9: code `"1234"` is already live. -/
def wGen : World :=
  { parties := [("1234", pDemoFermee)], userParty := [], odToSocket := [], socketToOd := [] }

/-- Witness for C9: the draw 26/1000 collides (it generates the live code
`"1234"`) and is discarded; the next draw 1/2 yields the fresh 4-digit code
`"5500"`. -/
theorem generateCode_spec_witness :
    ("5500" : String).length = 4 ∧
    ("5500" : String).data.all Char.isDigit = true ∧
    alookup "5500" wGen.parties = none := by
  have e1 : candidateCode (26/1000) = 1234 := by
    unfold candidateCode
    rw [show (1000 : ℚ) + 26/1000 * 9000 = ((1234 : ℤ) : ℚ) by norm_num,
      Int.floor_intCast]
    rfl
  have e2 : candidateCode (1/2) = 5500 := by
    unfold candidateCode
    rw [show (1000 : ℚ) + 1/2 * 9000 = ((5500 : ℤ) : ℚ) by norm_num,
      Int.floor_intCast]
    rfl
  have hc : generateCode wGen [26/1000, 1/2] = some "5500" := by
    show (if (alookup (Nat.repr (candidateCode (26/1000))) wGen.parties).isSome
        then generateCode wGen [1/2]
        else some (Nat.repr (candidateCode (26/1000)))) = some "5500"
    rw [e1, if_pos (by decide)]
    show (if (alookup (Nat.repr (candidateCode (1/2))) wGen.parties).isSome
        then generateCode wGen []
        else some (Nat.repr (candidateCode (1/2)))) = some "5500"
    rw [e2, if_neg (by decide)]
    decide
  have hq : ∀ q ∈ ([26/1000, 1/2] : List ℚ), 0 ≤ q ∧ q < 1 := by
    intro q hqq
    rcases List.mem_cons.mp hqq with h | h
    · subst h; norm_num
    · have : q = 1/2 := by simpa using h
      subst this; norm_num
  exact generateCode_spec wGen [26/1000, 1/2] "5500" hq hc

end VoteApp
